import Mathlib

/-!
Shallow embedding of the S.A.M. cognitive-rhythm core, translated from
the Python sources src/sam/core/psp.py and src/sam/core/vsp_engine.py.

Modelling conventions:
- Python floats are modelled as rationals; all arithmetic in the embedded
  fragment is field arithmetic on explicit literals, so no rounding issue
  is load-bearing for the properties proved here.
- numpy square root (inside np.linalg.norm) is irrational in general, so
  it is abstracted as an explicit function parameter sqrtF; every theorem
  that touches it quantifies over all choices of sqrtF, hence holds in
  particular for the real square root.
- blake3 over orjson bytes is a deterministic digest of a canonical
  encoding of the hashed substructure.  It is modelled as the canonical
  substructure itself (an injective, deterministic digest); hex output is
  abstracted away.  The claims settled here use only determinism and
  injectivity of the digest, which this model shares with the idealized
  collision-free hash.
- datetime values travel through the code only as inert tokens
  (isoformat on write, fromisoformat on read); they are modelled as
  strings, on which both conversions are the identity.
- Python exceptions become Except values; the error type distinguishes
  the exception classes that the settled claims talk about.
-/

namespace Sam

/-- Python exception classes relevant to the embedded code: numpy raises
ValueError on a misaligned dot product, while the validation layer of the
repository (pydantic) raises ValidationError. -/
inductive PyError where
  | valueError
  | validationError
deriving DecidableEq

/-! ### Data model of src/sam/core/psp.py -/

/-- WeightVector (psp.py lines 21-29): three components in the unit
interval (range validation is enforced by pydantic at construction and is
orthogonal to the properties proved here). -/
structure WeightVector where
  recency : ℚ
  perturbation : ℚ
  connectivity : ℚ
deriving DecidableEq

/-- total_weight (psp.py lines 27-29). -/
def WeightVector.total_weight (w : WeightVector) : ℚ :=
  0.4 * w.recency + 0.4 * w.perturbation + 0.2 * w.connectivity

/-- MomentumVector (psp.py lines 32-43). -/
structure MomentumVector where
  dimensions : ℕ
  magnitude : ℚ
  direction : List ℚ
  confidence : ℚ
deriving DecidableEq

/-- Default MomentumVector (psp.py lines 34-37). -/
def MomentumVector.base : MomentumVector :=
  { dimensions := 512, magnitude := 0, direction := List.replicate 512 0, confidence := 0 }

/-- VSPTrend (psp.py lines 46-49). -/
structure VSPTrend where
  rolling_avg : ℚ
  decay : ℚ
deriving DecidableEq

/-- Default VSPTrend (psp.py lines 48-49). -/
def VSPTrend.base : VSPTrend := { rolling_avg := 0, decay := 0.95 }

/-- WorkingMemoryItem (psp.py lines 52-64); the type tag is a string
constrained by pydantic to qualia_ref, draft_schema or context. -/
structure WorkingMemoryItem where
  id : String
  type : String
  weight : WeightVector
  expires_at : Option String
deriving DecidableEq

/-- Momentum (psp.py lines 67-72). -/
structure Momentum where
  schema_drift_vector : MomentumVector
  vsp_trend : VSPTrend
  emotional_state_vector : List ℚ
  raa_rhythm_signature : String
deriving DecidableEq

/-- Default Momentum (psp.py lines 69-72). -/
def Momentum.base : Momentum :=
  { schema_drift_vector := MomentumVector.base, vsp_trend := VSPTrend.base,
    emotional_state_vector := List.replicate 8 0, raa_rhythm_signature := "" }

/-- The kv_data dictionary hashed by PSP._update_checksums (psp.py lines
118-125): version, timestamp (isoformat), instance id, schema hash,
momentum dict and mode. -/
structure KvData where
  psp_version : String
  timestamp : String
  instance_id : String
  schema_hash : String
  momentum : Momentum
  mode : String
deriving DecidableEq

/-- Checksums (psp.py lines 75-78).  The kv digest is modelled as the
canonical KvData it hashes, the wm digest as the canonical ordered item
list; none models the empty-string default before any digest is stored. -/
structure Checksums where
  kv : Option KvData
  wm : Option (List WorkingMemoryItem)
deriving DecidableEq

/-- Signature (psp.py lines 81-84), hex strings. -/
structure Signature where
  sig : String
  pub : String
deriving DecidableEq

/-- PSP (psp.py lines 87-103): the full field set of the packet. -/
structure PSP where
  psp_version : String
  timestamp : String
  instance_id : String
  schema_hash : String
  working_memory : List WorkingMemoryItem
  momentum : Momentum
  mode : String
  checksums : Checksums
  sign : Signature
deriving DecidableEq

/-- The kv_data substructure of a packet (psp.py lines 118-125). -/
def PSP.kv_data (p : PSP) : KvData :=
  { psp_version := p.psp_version, timestamp := p.timestamp,
    instance_id := p.instance_id, schema_hash := p.schema_hash,
    momentum := p.momentum, mode := p.mode }

/-- PSP._update_checksums (psp.py lines 115-130): store the kv digest and
the working-memory digest recomputed from current content. -/
def PSP.update_checksums (p : PSP) : PSP :=
  { p with checksums := { kv := some p.kv_data, wm := some p.working_memory } }

/-- PSP.__init__ (psp.py lines 111-113): populate the fields from the
keyword arguments, then immediately recompute both checksums. -/
def PSP.init (data : PSP) : PSP :=
  data.update_checksums

/-- Sort comparator used by PSP._prune_working_memory (psp.py lines
144-148): sorted with key total_weight and reverse=True, i.e. a stable
sort that puts higher total_weight first. -/
def wmLe (a b : WorkingMemoryItem) : Bool :=
  decide (b.weight.total_weight ≤ a.weight.total_weight)

/-- PSP._prune_working_memory (psp.py lines 138-149). -/
def PSP.prune_working_memory (p : PSP) (max_items : ℕ) : PSP :=
  if p.working_memory.length ≤ max_items then p
  else { p with working_memory := (p.working_memory.mergeSort wmLe).take max_items }

/-- PSP.add_working_memory_item (psp.py lines 132-136): append, prune to
the default capacity 50, recompute checksums. -/
def PSP.add_working_memory_item (p : PSP) (item : WorkingMemoryItem) : PSP :=
  (({ p with working_memory := p.working_memory ++ [item] }).prune_working_memory 50).update_checksums

/-- PSP.update_momentum (psp.py lines 151-173).  Python truthiness: the
schema_drift model object is truthy whenever present, emotional_state
must be a non-empty list, raa_signature a non-empty string, while
vsp_value is compared against None explicitly. -/
def PSP.update_momentum (p : PSP)
    (schema_drift : Option MomentumVector) (vsp_value : Option ℚ)
    (emotional_state : Option (List ℚ)) (raa_signature : Option String) : PSP :=
  let p1 :=
    match schema_drift with
    | some sd => { p with momentum := { p.momentum with schema_drift_vector := sd } }
    | none => p
  let p2 :=
    match vsp_value with
    | some v =>
        { p1 with momentum := { p1.momentum with vsp_trend :=
            { p1.momentum.vsp_trend with rolling_avg :=
                p1.momentum.vsp_trend.decay * p1.momentum.vsp_trend.rolling_avg +
                  (1 - p1.momentum.vsp_trend.decay) * v } } }
    | none => p1
  let p3 :=
    match emotional_state with
    | some es =>
        if es ≠ [] then { p2 with momentum := { p2.momentum with emotional_state_vector := es } }
        else p2
    | none => p2
  let p4 :=
    match raa_signature with
    | some s =>
        if s ≠ "" then { p3 with momentum := { p3.momentum with raa_rhythm_signature := s } }
        else p3
    | none => p3
  p4.update_checksums

/-- PSP.set_mode (psp.py lines 175-180): reject anything outside the four
mode strings with a ValueError, else assign and recompute checksums. -/
def PSP.set_mode (p : PSP) (mode : String) : Except String PSP :=
  if mode ∉ ["idle", "flow", "deep", "crisis"] then
    .error ("Invalid mode: " ++ mode)
  else
    .ok ({ p with mode := mode }).update_checksums

/-- The sig_data dictionary signed by PSP.sign_psp (psp.py lines
184-186): the full packet dict with the sign field removed. -/
structure SigData where
  psp_version : String
  timestamp : String
  instance_id : String
  schema_hash : String
  working_memory : List WorkingMemoryItem
  momentum : Momentum
  mode : String
  checksums : Checksums
deriving DecidableEq

/-- Projection of a packet to its sig_data (psp.py lines 184-186). -/
def PSP.sig_data (p : PSP) : SigData :=
  { psp_version := p.psp_version, timestamp := p.timestamp,
    instance_id := p.instance_id, schema_hash := p.schema_hash,
    working_memory := p.working_memory, momentum := p.momentum,
    mode := p.mode, checksums := p.checksums }

/-- PSP.sign_psp (psp.py lines 182-193).  The external signing primitive
sam.utils.crypto.sign_data is out of scope per the spec and is passed in
as an abstract function from message and private key to a signature and
public key pair (hex encoding absorbed). -/
def PSP.sign_psp (sign_data : SigData → String → String × String)
    (p : PSP) (private_key : String) : PSP :=
  let r := sign_data p.sig_data private_key
  ({ p with sign := { sig := r.1, pub := r.2 } }).update_checksums

/-- PSP.verify_checksums (psp.py lines 213-226): remember the stored
digests, recompute both in place via _update_checksums, and compare.  The
returned pair carries the boolean result together with the packet state
after the call, because _update_checksums mutates self. -/
def PSP.verify_checksums (p : PSP) : Bool × PSP :=
  let current_kv := p.checksums.kv
  let current_wm := p.checksums.wm
  let p2 := p.update_checksums
  let kv_valid := decide (current_kv = p2.checksums.kv)
  let wm_valid := decide (current_wm = p2.checksums.wm)
  (kv_valid && wm_valid, p2)

/-- PSP.to_dict (psp.py lines 228-230): the serialized dictionary holds
exactly the field set of the packet, so it is modelled by the packet
record itself. -/
def PSP.to_dict (p : PSP) : PSP := p

/-- PSP.from_dict (psp.py lines 232-239): parse the timestamp (identity
on our string timestamps) and rebuild the packet through __init__, which
ends by recomputing both checksums from the loaded content. -/
def PSP.from_dict (data : PSP) : PSP :=
  PSP.init data

/-! ### Data model of src/sam/core/vsp_engine.py -/

/-- Mode (vsp_engine.py lines 19-24). -/
inductive Mode where
  | idle
  | flow
  | deep
  | crisis
deriving DecidableEq

/-- Thresholds (vsp_engine.py lines 27-35). -/
structure Thresholds where
  idle_to_flow : ℚ
  flow_to_idle : ℚ
  flow_to_deep : ℚ
  deep_to_flow : ℚ
  deep_to_crisis : ℚ
  crisis_to_deep : ℚ
deriving DecidableEq

/-- Default thresholds (vsp_engine.py lines 30-35). -/
def Thresholds.base : Thresholds :=
  { idle_to_flow := 0.3, flow_to_idle := 0.2, flow_to_deep := 0.6,
    deep_to_flow := 0.5, deep_to_crisis := 0.8, crisis_to_deep := 0.7 }

/-- HysteresisConfig (vsp_engine.py lines 38-43). -/
structure HysteresisConfig where
  debounce_ms : ℤ
  trend_decay : ℚ
  rolling_window : ℕ
deriving DecidableEq

/-- Default hysteresis configuration (vsp_engine.py lines 41-43). -/
def HysteresisConfig.base : HysteresisConfig :=
  { debounce_ms := 1000, trend_decay := 0.95, rolling_window := 10 }

/-- LensingConfig (vsp_engine.py lines 46-51). -/
structure LensingConfig where
  emotion_weight : ℚ
  causal_weight : ℚ
  temporal_weight : ℚ
deriving DecidableEq

/-- Default lensing configuration (vsp_engine.py lines 49-51). -/
def LensingConfig.base : LensingConfig :=
  { emotion_weight := 0.3, causal_weight := 0.2, temporal_weight := 0.1 }

/-- Mutable state of VSPEngine (vsp_engine.py lines 76-84): configuration
plus current mode, timestamp of the last mode change, the perturbation
history and the optional stored schema basis.  The ambient clock
time.time() becomes an explicit now argument of the methods reading it. -/
structure VSPEngine where
  thresholds : Thresholds
  hysteresis : HysteresisConfig
  lensing : LensingConfig
  current_mode : Mode
  last_mode_change : ℚ
  vsp_history : List ℚ
  schema_basis : Option (List ℚ)
deriving DecidableEq

/-- VSPEngine.__init__ (vsp_engine.py lines 62-89). -/
def VSPEngine.init (thresholds : Thresholds) (hysteresis : HysteresisConfig)
    (lensing : LensingConfig) (now : ℚ) : VSPEngine :=
  { thresholds := thresholds, hysteresis := hysteresis, lensing := lensing,
    current_mode := Mode.idle, last_mode_change := now,
    vsp_history := [], schema_basis := none }

/-- np.linalg.norm of a 1-D vector: square root of the sum of squares,
with the square root supplied as the abstract parameter sqrtF. -/
def np_linalg_norm (sqrtF : ℚ → ℚ) (v : List ℚ) : ℚ :=
  sqrtF ((v.map (fun x => x * x)).sum)

/-- VSPEngine._normalize_vector (vsp_engine.py lines 155-160): divide by
the norm unless it is zero. -/
def normalize_vector (sqrtF : ℚ → ℚ) (vec : List ℚ) : List ℚ :=
  let norm := np_linalg_norm sqrtF vec
  if norm = 0 then vec else vec.map (fun x => x / norm)

/-- np.dot on two 1-D arrays: the sum of pairwise products when the
shapes agree, and a ValueError (shapes not aligned) otherwise. -/
def np_dot (a b : List ℚ) : Except PyError ℚ :=
  if a.length = b.length then .ok ((a.zip b).map (fun q => q.1 * q.2)).sum
  else .error .valueError

/-- VSPEngine._compute_lensing_modifier (vsp_engine.py lines 162-189).
Python truthiness: the emotional list and the causal mapping contribute
only when non-empty, the temporal factor whenever present. -/
def compute_lensing_modifier (cfg : LensingConfig)
    (emotional_lensing : Option (List ℚ))
    (causal_context : Option (List (String × ℚ)))
    (temporal_context : Option ℚ) : ℚ :=
  let m1 : ℚ :=
    match emotional_lensing with
    | some el =>
        if el ≠ [] then
          if 2 ≤ el.length then
            cfg.emotion_weight * ((el.getD 0 0 + el.getD 1 0) / 2)
          else 0
        else 0
    | none => 0
  let m2 : ℚ :=
    match causal_context with
    | some cc =>
        if cc ≠ [] then
          m1 + cfg.causal_weight * ((cc.map (fun q => q.2)).sum / cc.length)
        else m1
    | none => m1
  match temporal_context with
  | some t => m2 + cfg.temporal_weight * t
  | none => m2

/-- VSPEngine._update_history (vsp_engine.py lines 191-197): append to
the history, then drop the oldest entry when the rolling window is
exceeded. -/
def VSPEngine.update_history (e : VSPEngine) (vsp : ℚ) : VSPEngine :=
  let h := e.vsp_history ++ [vsp]
  if e.hysteresis.rolling_window < h.length then
    { e with vsp_history := h.tail }
  else
    { e with vsp_history := h }

/-- VSPEngine.compute_vsp (vsp_engine.py lines 91-153).  Empty input
returns 0; with neither an explicit nor a stored reference the fixed
sentinel 0.8 is returned before history is touched; otherwise both
vectors are normalized, the dot product (which raises on a shape
mismatch) is clamped into a phase similarity, the lensing modifier is
applied, the result is clamped to the unit interval and appended to the
history.  The returned pair carries the value and the engine state after
the call. -/
def VSPEngine.compute_vsp (sqrtF : ℚ → ℚ) (e : VSPEngine)
    (input_vector : List ℚ) (schema_basis : Option (List ℚ))
    (emotional_lensing : Option (List ℚ))
    (causal_context : Option (List (String × ℚ)))
    (temporal_context : Option ℚ) : Except PyError (ℚ × VSPEngine) :=
  if input_vector = [] then .ok (0, e)
  else
    let cont := fun (schema_vec0 : List ℚ) =>
      let input_vec := normalize_vector sqrtF input_vector
      let schema_vec := normalize_vector sqrtF schema_vec0
      match np_dot input_vec schema_vec with
      | .error err => .error err
      | .ok cosine_sim =>
          let phase_similarity := max 0 cosine_sim
          let lensing_modifier :=
            compute_lensing_modifier e.lensing emotional_lensing causal_context temporal_context
          let vsp := (1 - phase_similarity) * (1 + e.lensing.emotion_weight * |lensing_modifier|)
          let vsp2 := max 0 (min 1 vsp)
          .ok (vsp2, e.update_history vsp2)
    match schema_basis with
    | some sb => cont sb
    | none =>
        match e.schema_basis with
        | some sb => cont sb
        | none => .ok (0.8, e)

/-- VSPEngine._get_target_mode (vsp_engine.py lines 232-241): cascading
threshold comparison from Crisis down to Idle. -/
def VSPEngine.get_target_mode (e : VSPEngine) (vsp : ℚ) : Mode :=
  if vsp ≥ e.thresholds.deep_to_crisis then Mode.crisis
  else if vsp ≥ e.thresholds.flow_to_deep then Mode.deep
  else if vsp ≥ e.thresholds.idle_to_flow then Mode.flow
  else Mode.idle

/-- VSPEngine._should_transition (vsp_engine.py lines 243-263): special
cases for leaving and entering Crisis, then the four one-rung hysteresis
pairs; every other pair is rejected. -/
def VSPEngine.should_transition (e : VSPEngine) (vsp : ℚ) (target_mode : Mode) : Bool :=
  if e.current_mode = Mode.crisis then
    decide (vsp ≤ e.thresholds.crisis_to_deep)
  else if target_mode = Mode.crisis then
    decide (vsp ≥ e.thresholds.deep_to_crisis)
  else if e.current_mode = Mode.idle ∧ target_mode = Mode.flow then
    decide (vsp ≥ e.thresholds.idle_to_flow)
  else if e.current_mode = Mode.flow ∧ target_mode = Mode.idle then
    decide (vsp ≤ e.thresholds.flow_to_idle)
  else if e.current_mode = Mode.flow ∧ target_mode = Mode.deep then
    decide (vsp ≥ e.thresholds.flow_to_deep)
  else if e.current_mode = Mode.deep ∧ target_mode = Mode.flow then
    decide (vsp ≤ e.thresholds.deep_to_flow)
  else
    false

/-- VSPEngine.get_mode (vsp_engine.py lines 199-230).  Inside the
debounce window the current mode is returned with no state change;
otherwise the target mode is computed and, when it differs from the
current mode and the hysteresis gate accepts, the mode and the
last-change timestamp are updated.  The returned pair carries the mode
reported to the caller and the engine state after the call. -/
def VSPEngine.get_mode (e : VSPEngine) (vsp : ℚ) (now : ℚ) : Mode × VSPEngine :=
  if now - e.last_mode_change < (e.hysteresis.debounce_ms : ℚ) / 1000 then
    (e.current_mode, e)
  else
    let target_mode := e.get_target_mode vsp
    if target_mode ≠ e.current_mode then
      if e.should_transition vsp target_mode then
        (target_mode, { e with current_mode := target_mode, last_mode_change := now })
      else
        (e.current_mode, e)
    else
      (e.current_mode, e)

/-- VSPEngine.get_vsp_trend (vsp_engine.py lines 265-285): walk the
history from newest to oldest, weighting by successive powers of
trend_decay, and return the weighted sum divided by the total weight,
falling back to 0 for an empty history or a non-positive total. -/
def VSPEngine.get_vsp_trend (e : VSPEngine) : ℚ :=
  if e.vsp_history = [] then 0
  else
    let r := e.vsp_history.reverse.foldl
      (fun acc vsp => (acc.1 + vsp * acc.2.1, acc.2.1 * e.hysteresis.trend_decay, acc.2.2 + acc.2.1))
      (0, 1, 0)
    if 0 < r.2.2 then r.1 / r.2.2 else 0

/-- VSPEngine.update_schema_basis (vsp_engine.py lines 287-296). -/
def VSPEngine.update_schema_basis (e : VSPEngine) (schema_basis : List ℚ) : VSPEngine :=
  { e with schema_basis := some schema_basis }

/-- Weighted sum of a newest-first list with geometrically decaying
weights: entry i contributes its value times decay to the power i.  This
is the numerator of the trend formula in the spec. -/
def wsum (d : ℚ) : List ℚ → ℚ
  | [] => 0
  | x :: xs => x + d * wsum d xs

/-- Geometric weight total: the sum of decay to the power i for i below
n.  This is the denominator of the trend formula in the spec. -/
def gsum (d : ℚ) : ℕ → ℚ
  | 0 => 0
  | n + 1 => 1 + d * gsum d n

/-- Invariant of the working-memory eviction loop: after processing a
initial segment of the item stream, the retained list is duplicate-free, drawn
from the processed items, holds min(processed, 50) items, and every
processed item not retained weighs strictly less than every retained
item. -/
def TopInv (processed wm : List WorkingMemoryItem) : Prop :=
  wm.Nodup ∧ (∀ x ∈ wm, x ∈ processed) ∧ wm.length = min processed.length 50 ∧
    ∀ x ∈ processed, x ∉ wm → ∀ y ∈ wm,
      x.weight.total_weight < y.weight.total_weight

/-! ### Concrete values used to instantiate the theorems -/

/-- The raw keyword arguments of a default PSP() call (uuid and the
current time replaced by fixed tokens); the stored checksums still hold
the empty defaults, so this value also exhibits a packet whose stored
checksums do not match its content. -/
def pspRaw : PSP :=
  { psp_version := "1.1", timestamp := "2025-01-01T00:00:00+00:00",
    instance_id := "instance-0", schema_hash := "", working_memory := [],
    momentum := Momentum.base, mode := "idle",
    checksums := { kv := none, wm := none }, sign := { sig := "", pub := "" } }

/-- A freshly constructed default packet: PSP() runs __init__, which
recomputes both checksums. -/
def pspExample : PSP := PSP.init pspRaw

/-- An engine with default configuration currently in Flow, last mode
change at time 0. -/
def engineFlow : VSPEngine :=
  { thresholds := Thresholds.base, hysteresis := HysteresisConfig.base,
    lensing := LensingConfig.base, current_mode := Mode.flow,
    last_mode_change := 0, vsp_history := [], schema_basis := none }

/-- An engine with default configuration currently in Crisis. -/
def engineCrisis : VSPEngine := { engineFlow with current_mode := Mode.crisis }

/-- A fresh engine as built by the constructor (Idle, empty history, no basis). -/
def engineIdle : VSPEngine :=
  VSPEngine.init Thresholds.base HysteresisConfig.base LensingConfig.base 0

/-- A working-memory item with total weight increasing in the index. -/
def wmItem (i : ℕ) : WorkingMemoryItem :=
  { id := toString i, type := "context",
    weight := { recency := (i : ℚ) / 100, perturbation := 0.1, connectivity := 0.1 },
    expires_at := none }

/-- Sixty working-memory items with pairwise distinct total weights. -/
def wmItems60 : List WorkingMemoryItem := (List.range 60).map wmItem

/-! ### Helper lemmas -/

/-- Verification immediately after a checksum recomputation always
succeeds: both digests are recomputed from content fields that the
recomputation does not touch. -/
theorem verify_after_update (q : PSP) : (q.update_checksums).verify_checksums.1 = true := by
  simp [PSP.verify_checksums, PSP.update_checksums, PSP.kv_data]

/-! ### Claims -/

/-- C1: for every freshly constructed PSP and after every public mutating
method returns (add_working_memory_item, update_momentum, set_mode,
sign_psp), verify_checksums is true for the packet content, because every
one of these code paths ends in _update_checksums. -/
theorem c1_checksum_invariant :
    (∀ data : PSP, (PSP.init data).verify_checksums.1 = true) ∧
    (∀ (p : PSP) (item : WorkingMemoryItem),
      (p.add_working_memory_item item).verify_checksums.1 = true) ∧
    (∀ (p : PSP) (sd : Option MomentumVector) (v : Option ℚ)
       (es : Option (List ℚ)) (rs : Option String),
      (p.update_momentum sd v es rs).verify_checksums.1 = true) ∧
    (∀ (p p2 : PSP) (m : String), p.set_mode m = Except.ok p2 →
      p2.verify_checksums.1 = true) ∧
    (∀ (f : SigData → String → String × String) (p : PSP) (k : String),
      (p.sign_psp f k).verify_checksums.1 = true) := by
  refine ⟨fun data => verify_after_update data,
          fun p item => verify_after_update _,
          fun p sd v es rs => verify_after_update _,
          ?_,
          fun f p k => verify_after_update _⟩
  intro p p2 m h
  unfold PSP.set_mode at h
  split at h
  · simp at h
  · cases h
    exact verify_after_update _

/-- C1 witness: set_mode on the concrete default packet succeeds and the
resulting packet verifies. -/
theorem c1_checksum_invariant_witness :
    pspExample.set_mode "flow" =
      Except.ok (({ pspExample with mode := "flow" }).update_checksums) ∧
    (({ pspExample with mode := "flow" }).update_checksums).verify_checksums.1 = true :=
  ⟨by rfl, c1_checksum_invariant.2.2.2.1 pspExample _ "flow" (by rfl)⟩

/-- C2: evaluating the code at the failing input.  Serialize a freshly
constructed packet, alter the schema_hash field of the blob, reload via
from_dict: verify_checksums on the reloaded packet returns true, because
from_dict goes through __init__, which recomputes both digests from the
altered content before anything can be compared.  The claim (and the
spec) require false here, so tampering with the serialized blob is never
detected. -/
theorem c2_tampered_reload_still_verifies :
    ({ pspExample.to_dict with schema_hash := "tampered" } : PSP).schema_hash ≠
      pspExample.to_dict.schema_hash ∧
    (PSP.from_dict { pspExample.to_dict with schema_hash := "tampered" }).verify_checksums.1 =
      true :=
  ⟨by decide, verify_after_update _⟩

/-- C3 counterexample: on a packet whose stored checksums do not match
its content, verify_checksums returns false but also overwrites the
stored checksums with the recomputed digests, so the packet after the
call differs from the packet before it; the claim that every field,
including the stored checksums, is unchanged fails. -/
theorem c3_counterexample :
    pspRaw.verify_checksums.1 = false ∧
    pspRaw.verify_checksums.2 ≠ pspRaw ∧
    pspRaw.verify_checksums.2.checksums.kv = some pspRaw.kv_data := by
  refine ⟨by rfl, ?_, by rfl⟩
  intro h
  have hkv := congrArg (fun q => q.checksums.kv) h
  simp [pspRaw, PSP.verify_checksums, PSP.update_checksums] at hkv

/-- C3 amended: verify_checksums returns true exactly when both stored
digests equal the digests recomputed from current content, and it leaves
every non-checksum field unchanged; but it overwrites the stored
checksums with the recomputed digests (the packet after the call is
update_checksums of the packet before it), so a mismatched stored
checksum is repaired in place by the verification call rather than left
untouched. -/
theorem c3_verify_semantics (p : PSP) :
    (p.verify_checksums.1 = true ↔
      (p.checksums.kv = some p.kv_data ∧ p.checksums.wm = some p.working_memory)) ∧
    p.verify_checksums.2 = p.update_checksums ∧
    p.verify_checksums.2.psp_version = p.psp_version ∧
    p.verify_checksums.2.timestamp = p.timestamp ∧
    p.verify_checksums.2.instance_id = p.instance_id ∧
    p.verify_checksums.2.schema_hash = p.schema_hash ∧
    p.verify_checksums.2.working_memory = p.working_memory ∧
    p.verify_checksums.2.momentum = p.momentum ∧
    p.verify_checksums.2.mode = p.mode ∧
    p.verify_checksums.2.sign = p.sign := by
  simp [PSP.verify_checksums, PSP.update_checksums, PSP.kv_data]

/-- Normalization does not change the length of a vector. -/
theorem normalize_vector_length (sqrtF : ℚ → ℚ) (v : List ℚ) :
    (normalize_vector sqrtF v).length = v.length := by
  simp only [normalize_vector]
  split <;> simp

/-- C4 counterexample: at the concrete non-empty observation [1] and the
concrete non-empty reference [1, 0] of a different length, compute_vsp
raises the numpy ValueError coming out of the misaligned dot product, and
that exception is not the ValidationError the claim names. -/
theorem c4_counterexample :
    VSPEngine.compute_vsp (fun x => x) engineIdle [1] (some [1, 0]) none none none =
      Except.error PyError.valueError ∧
    PyError.valueError ≠ PyError.validationError := by
  constructor
  · have hdot : np_dot (normalize_vector (fun x => x) [1]) (normalize_vector (fun x => x) [1, 0]) =
        Except.error PyError.valueError := by
      unfold np_dot
      rw [if_neg]
      simp [normalize_vector_length]
    unfold VSPEngine.compute_vsp
    rw [if_neg (by decide)]
    simp only [hdot]
  · decide

/-- C4 amended: for every non-empty observation vector and non-empty
reference vector of differing lengths, compute_vsp fails fast by raising
an error - the ValueError that numpy raises for the misaligned dot
product - rather than returning a numeric perturbation value; it is not
the ValidationError of the validation layer that the claim names. -/
theorem c4_dim_mismatch_raises (sqrtF : ℚ → ℚ) (e : VSPEngine)
    (obs ref : List ℚ) (em : Option (List ℚ)) (ca : Option (List (String × ℚ)))
    (te : Option ℚ) (hobs : obs ≠ []) (href : ref ≠ [])
    (hlen : obs.length ≠ ref.length) :
    VSPEngine.compute_vsp sqrtF e obs (some ref) em ca te =
      Except.error PyError.valueError := by
  have hdot : np_dot (normalize_vector sqrtF obs) (normalize_vector sqrtF ref) =
      Except.error PyError.valueError := by
    unfold np_dot
    rw [if_neg]
    simpa [normalize_vector_length] using hlen
  unfold VSPEngine.compute_vsp
  rw [if_neg hobs]
  simp only [hdot]

/-- C4 witness: the amended theorem applied at the concrete input of the
counterexample. -/
theorem c4_dim_mismatch_raises_witness :
    ([1] : List ℚ) ≠ [] ∧ ([1, 0] : List ℚ) ≠ [] ∧
    ([1] : List ℚ).length ≠ ([1, 0] : List ℚ).length ∧
    VSPEngine.compute_vsp (fun x => x) engineIdle [1] (some [1, 0]) none none none =
      Except.error PyError.valueError :=
  ⟨by decide, by decide, by decide,
    c4_dim_mismatch_raises (fun x => x) engineIdle [1] [1, 0] none none none
      (by decide) (by decide) (by decide)⟩

/-- C9: for every non-empty observation vector, when no reference
argument is supplied and the engine holds no stored reference,
compute_vsp returns exactly 0.8 and leaves the engine state, in
particular the perturbation history, unchanged. -/
theorem c9_no_reference_sentinel (sqrtF : ℚ → ℚ) (e : VSPEngine)
    (input : List ℚ) (em : Option (List ℚ)) (ca : Option (List (String × ℚ)))
    (te : Option ℚ) (hne : input ≠ []) (hb : e.schema_basis = none) :
    VSPEngine.compute_vsp sqrtF e input none em ca te = Except.ok (0.8, e) := by
  unfold VSPEngine.compute_vsp
  rw [if_neg hne]
  simp [hb]

/-- C9 witness: the theorem applied to a fresh engine and the concrete
observation [1]. -/
theorem c9_no_reference_sentinel_witness :
    ([1] : List ℚ) ≠ [] ∧ engineIdle.schema_basis = none ∧
    VSPEngine.compute_vsp (fun x => x) engineIdle [1] none none none none =
      Except.ok (0.8, engineIdle) :=
  ⟨by decide, by rfl,
    c9_no_reference_sentinel (fun x => x) engineIdle [1] none none none (by decide) (by rfl)⟩

/-- C6: for every vsp value, while the elapsed time since the last mode
change is below the debounce duration, get_mode returns the current mode
and changes no state; hence two calls inside the same debounce window
return the same mode whatever their vsp inputs. -/
theorem c6_debounce_gate (e : VSPEngine) (vsp1 vsp2 now1 now2 : ℚ)
    (h1 : now1 - e.last_mode_change < (e.hysteresis.debounce_ms : ℚ) / 1000)
    (h2 : now2 - e.last_mode_change < (e.hysteresis.debounce_ms : ℚ) / 1000) :
    VSPEngine.get_mode e vsp1 now1 = (e.current_mode, e) ∧
    VSPEngine.get_mode e vsp2 now2 = (e.current_mode, e) ∧
    (VSPEngine.get_mode e vsp1 now1).1 = (VSPEngine.get_mode e vsp2 now2).1 := by
  unfold VSPEngine.get_mode
  rw [if_pos h1, if_pos h2]
  exact ⟨rfl, rfl, rfl⟩

/-- C6 witness: two calls with different vsp inputs 0.1 out of the
debounce window at times 0.2 and 0.7 on the flow engine. -/
theorem c6_debounce_gate_witness :
    (0.2 : ℚ) - engineFlow.last_mode_change <
      (engineFlow.hysteresis.debounce_ms : ℚ) / 1000 ∧
    (0.7 : ℚ) - engineFlow.last_mode_change <
      (engineFlow.hysteresis.debounce_ms : ℚ) / 1000 ∧
    VSPEngine.get_mode engineFlow 0.05 0.2 = (engineFlow.current_mode, engineFlow) ∧
    VSPEngine.get_mode engineFlow 0.95 0.7 = (engineFlow.current_mode, engineFlow) ∧
    (VSPEngine.get_mode engineFlow 0.05 0.2).1 = (VSPEngine.get_mode engineFlow 0.95 0.7).1 :=
  ⟨by norm_num [engineFlow, HysteresisConfig.base],
    by norm_num [engineFlow, HysteresisConfig.base],
    c6_debounce_gate engineFlow 0.05 0.95 0.2 0.7
      (by norm_num [engineFlow, HysteresisConfig.base])
      (by norm_num [engineFlow, HysteresisConfig.base])⟩

/-- C5: with the engine in Flow and the debounce window elapsed, every
vsp strictly between flow_to_idle and idle_to_flow leaves the mode at
Flow with no state change (the target mode is Idle but the hysteresis
gate rejects the transition), assuming the thresholds are ordered as in
every sane configuration (idle_to_flow below flow_to_deep below
deep_to_crisis, as in the defaults). -/
theorem c5_flow_hysteresis_zone (e : VSPEngine) (vsp now : ℚ)
    (hmode : e.current_mode = Mode.flow)
    (hdeb : (e.hysteresis.debounce_ms : ℚ) / 1000 ≤ now - e.last_mode_change)
    (hlo : e.thresholds.flow_to_idle < vsp)
    (hhi : vsp < e.thresholds.idle_to_flow)
    (ho1 : e.thresholds.idle_to_flow ≤ e.thresholds.flow_to_deep)
    (ho2 : e.thresholds.flow_to_deep ≤ e.thresholds.deep_to_crisis) :
    VSPEngine.get_mode e vsp now = (Mode.flow, e) := by
  have htarget : VSPEngine.get_target_mode e vsp = Mode.idle := by
    unfold VSPEngine.get_target_mode
    rw [if_neg (not_le.mpr (by linarith)), if_neg (not_le.mpr (by linarith)),
      if_neg (not_le.mpr (by linarith))]
  have hst : VSPEngine.should_transition e vsp Mode.idle = false := by
    unfold VSPEngine.should_transition
    rw [if_neg (by simp [hmode]), if_neg (by simp), if_neg (by simp [hmode]),
      if_pos (by simp [hmode])]
    simp only [decide_eq_false_iff_not, not_le]
    exact hlo
  unfold VSPEngine.get_mode
  rw [if_neg (not_lt.mpr hdeb)]
  simp [htarget, hst, hmode]

/-- C5 witness: the default flow engine at vsp 0.25 (strictly between the
default flow_to_idle 0.2 and idle_to_flow 0.3) and time 2. -/
theorem c5_flow_hysteresis_zone_witness :
    engineFlow.current_mode = Mode.flow ∧
    (engineFlow.hysteresis.debounce_ms : ℚ) / 1000 ≤ 2 - engineFlow.last_mode_change ∧
    engineFlow.thresholds.flow_to_idle < (0.25 : ℚ) ∧
    (0.25 : ℚ) < engineFlow.thresholds.idle_to_flow ∧
    engineFlow.thresholds.idle_to_flow ≤ engineFlow.thresholds.flow_to_deep ∧
    engineFlow.thresholds.flow_to_deep ≤ engineFlow.thresholds.deep_to_crisis ∧
    VSPEngine.get_mode engineFlow 0.25 2 = (Mode.flow, engineFlow) :=
  ⟨by rfl,
    by norm_num [engineFlow, HysteresisConfig.base],
    by norm_num [engineFlow, Thresholds.base],
    by norm_num [engineFlow, Thresholds.base],
    by norm_num [engineFlow, Thresholds.base],
    by norm_num [engineFlow, Thresholds.base],
    c5_flow_hysteresis_zone engineFlow 0.25 2 (by rfl)
      (by norm_num [engineFlow, HysteresisConfig.base])
      (by norm_num [engineFlow, Thresholds.base])
      (by norm_num [engineFlow, Thresholds.base])
      (by norm_num [engineFlow, Thresholds.base])
      (by norm_num [engineFlow, Thresholds.base])⟩

/-- C10: leaving Crisis cascades directly to the target mode.  With the
engine in Crisis, the debounce window elapsed and vsp at or below
crisis_to_deep, a single get_mode call transitions straight to Idle when
vsp is below idle_to_flow, and straight to Flow when vsp lies in
[idle_to_flow, flow_to_deep), skipping the intermediate modes (threshold
ordering as in the defaults assumed). -/
theorem c10_crisis_exit_cascade (e : VSPEngine) (vsp now : ℚ)
    (hmode : e.current_mode = Mode.crisis)
    (hdeb : (e.hysteresis.debounce_ms : ℚ) / 1000 ≤ now - e.last_mode_change)
    (hexit : vsp ≤ e.thresholds.crisis_to_deep)
    (ho1 : e.thresholds.idle_to_flow ≤ e.thresholds.flow_to_deep)
    (ho2 : e.thresholds.flow_to_deep ≤ e.thresholds.deep_to_crisis) :
    (vsp < e.thresholds.idle_to_flow →
      VSPEngine.get_mode e vsp now =
        (Mode.idle, { e with current_mode := Mode.idle, last_mode_change := now })) ∧
    (e.thresholds.idle_to_flow ≤ vsp → vsp < e.thresholds.flow_to_deep →
      VSPEngine.get_mode e vsp now =
        (Mode.flow, { e with current_mode := Mode.flow, last_mode_change := now })) := by
  have hcrisis : ∀ t : Mode, VSPEngine.should_transition e vsp t = true := by
    intro t
    unfold VSPEngine.should_transition
    rw [if_pos hmode]
    simpa using hexit
  constructor
  · intro hidle
    have htarget : VSPEngine.get_target_mode e vsp = Mode.idle := by
      unfold VSPEngine.get_target_mode
      rw [if_neg (not_le.mpr (by linarith)), if_neg (not_le.mpr (by linarith)),
        if_neg (not_le.mpr (by linarith))]
    unfold VSPEngine.get_mode
    rw [if_neg (not_lt.mpr hdeb)]
    simp [htarget, hcrisis, hmode]
  · intro hge hlt
    have htarget : VSPEngine.get_target_mode e vsp = Mode.flow := by
      unfold VSPEngine.get_target_mode
      rw [if_neg (not_le.mpr (by linarith)), if_neg (not_le.mpr (by linarith)),
        if_pos hge]
    unfold VSPEngine.get_mode
    rw [if_neg (not_lt.mpr hdeb)]
    simp [htarget, hcrisis, hmode]

/-- C10 witness: the default crisis engine exits straight to Idle at vsp
0.1 and straight to Flow at vsp 0.4 (the applied theorem instance is the
one for vsp 0.1; the conjunction it returns covers both cascade arms). -/
theorem c10_crisis_exit_cascade_witness :
    engineCrisis.current_mode = Mode.crisis ∧
    (engineCrisis.hysteresis.debounce_ms : ℚ) / 1000 ≤ 2 - engineCrisis.last_mode_change ∧
    (0.1 : ℚ) ≤ engineCrisis.thresholds.crisis_to_deep ∧
    engineCrisis.thresholds.idle_to_flow ≤ engineCrisis.thresholds.flow_to_deep ∧
    engineCrisis.thresholds.flow_to_deep ≤ engineCrisis.thresholds.deep_to_crisis ∧
    (((0.1 : ℚ) < engineCrisis.thresholds.idle_to_flow →
      VSPEngine.get_mode engineCrisis 0.1 2 =
        (Mode.idle, { engineCrisis with current_mode := Mode.idle, last_mode_change := 2 })) ∧
     (engineCrisis.thresholds.idle_to_flow ≤ (0.1 : ℚ) →
      (0.1 : ℚ) < engineCrisis.thresholds.flow_to_deep →
      VSPEngine.get_mode engineCrisis 0.1 2 =
        (Mode.flow, { engineCrisis with current_mode := Mode.flow, last_mode_change := 2 }))) :=
  ⟨by rfl,
    by norm_num [engineCrisis, engineFlow, HysteresisConfig.base],
    by norm_num [engineCrisis, engineFlow, Thresholds.base],
    by norm_num [engineCrisis, engineFlow, Thresholds.base],
    by norm_num [engineCrisis, engineFlow, Thresholds.base],
    c10_crisis_exit_cascade engineCrisis 0.1 2 (by rfl)
      (by norm_num [engineCrisis, engineFlow, HysteresisConfig.base])
      (by norm_num [engineCrisis, engineFlow, Thresholds.base])
      (by norm_num [engineCrisis, engineFlow, Thresholds.base])
      (by norm_num [engineCrisis, engineFlow, Thresholds.base])⟩

/-- Closed form of the get_vsp_trend accumulator loop: starting from
running trend t, current weight w and running total tot, folding over the
newest-first list v yields the decayed weighted sum, the decayed weight
and the geometric total. -/
theorem trend_foldl_closed (d : ℚ) (v : List ℚ) (t w tot : ℚ) :
    v.foldl (fun acc vsp => (acc.1 + vsp * acc.2.1, acc.2.1 * d, acc.2.2 + acc.2.1)) (t, w, tot) =
      (t + w * wsum d v, w * d ^ v.length, tot + w * gsum d v.length) := by
  induction v generalizing t w tot with
  | nil => simp [wsum, gsum]
  | cons x xs ih =>
      rw [List.foldl_cons, ih]
      refine Prod.ext ?_ (Prod.ext ?_ ?_)
      · simp only [wsum]
        ring
      · simp only [List.length_cons, pow_succ]
        ring
      · simp only [List.length_cons, gsum]
        ring

/-- The recursive weighted sum agrees with the indexed formula of the
spec: the entry at position i of the newest-first list weighted by decay
to the power i. -/
theorem wsum_eq_sum (d : ℚ) (v : List ℚ) :
    wsum d v = ∑ i ∈ Finset.range v.length, v.getD i 0 * d ^ i := by
  induction v with
  | nil => simp [wsum]
  | cons x xs ih =>
      rw [wsum, ih, List.length_cons, Finset.sum_range_succ']
      simp only [List.getD_cons_succ, List.getD_cons_zero, pow_zero, mul_one, pow_succ,
        Finset.mul_sum]
      rw [add_comm]
      congr 1
      refine Finset.sum_congr rfl ?_
      intro i _
      ring

/-- The recursive geometric total agrees with the indexed formula of the
spec. -/
theorem gsum_eq_sum (d : ℚ) (n : ℕ) :
    gsum d n = ∑ i ∈ Finset.range n, d ^ i := by
  induction n with
  | zero => simp [gsum]
  | succ m ih =>
      rw [gsum, ih, geom_sum_succ]
      ring

/-- The geometric total is non-negative for non-negative decay. -/
theorem gsum_nonneg (d : ℚ) (hd : 0 ≤ d) (n : ℕ) : 0 ≤ gsum d n := by
  induction n with
  | zero => simp [gsum]
  | succ m ih =>
      rw [gsum]
      have := mul_nonneg hd ih
      linarith

/-- The geometric total is positive for non-negative decay and at least
one entry. -/
theorem gsum_pos (d : ℚ) (hd : 0 ≤ d) (n : ℕ) (hn : 0 < n) : 0 < gsum d n := by
  rcases n with _ | m
  · exact absurd hn (by simp)
  · rw [gsum]
    have := mul_nonneg hd (gsum_nonneg d hd m)
    linarith

/-- get_vsp_trend on a non-empty history in closed form. -/
theorem get_vsp_trend_closed (e : VSPEngine) (h : e.vsp_history ≠ []) :
    VSPEngine.get_vsp_trend e =
      if 0 < gsum e.hysteresis.trend_decay e.vsp_history.length then
        wsum e.hysteresis.trend_decay e.vsp_history.reverse /
          gsum e.hysteresis.trend_decay e.vsp_history.length
      else 0 := by
  unfold VSPEngine.get_vsp_trend
  rw [if_neg h, trend_foldl_closed]
  simp [List.length_reverse]

/-- C7: get_vsp_trend returns the exponentially weighted average of the
history read newest first, the weight of entry i being trend_decay to the
power i, normalized by the total of the weights; the empty history yields
exactly 0.  Stated for non-negative decay, which makes the accumulated
total weight positive for a non-empty history so that the guard in the
source takes the division branch. -/
theorem c7_trend_formula (e : VSPEngine) (hd : 0 ≤ e.hysteresis.trend_decay) :
    (e.vsp_history = [] → VSPEngine.get_vsp_trend e = 0) ∧
    VSPEngine.get_vsp_trend e =
      (∑ i ∈ Finset.range e.vsp_history.reverse.length,
          e.vsp_history.reverse.getD i 0 * e.hysteresis.trend_decay ^ i) /
        (∑ i ∈ Finset.range e.vsp_history.reverse.length, e.hysteresis.trend_decay ^ i) := by
  constructor
  · intro h
    simp [VSPEngine.get_vsp_trend, h]
  · by_cases h : e.vsp_history = []
    · simp [VSPEngine.get_vsp_trend, h]
    · have hlen : 0 < e.vsp_history.length := List.length_pos.mpr h
      have hpos := gsum_pos e.hysteresis.trend_decay hd e.vsp_history.length hlen
      rw [get_vsp_trend_closed e h, if_pos hpos, wsum_eq_sum, gsum_eq_sum,
        List.length_reverse]

/-- C7 witness: the default flow engine carries an empty history and a
decay of 0.95; its trend is 0 and equals the weighted-average formula. -/
theorem c7_trend_formula_witness :
    0 ≤ engineFlow.hysteresis.trend_decay ∧
    ((engineFlow.vsp_history = [] → VSPEngine.get_vsp_trend engineFlow = 0) ∧
     VSPEngine.get_vsp_trend engineFlow =
       (∑ i ∈ Finset.range engineFlow.vsp_history.reverse.length,
           engineFlow.vsp_history.reverse.getD i 0 * engineFlow.hysteresis.trend_decay ^ i) /
         (∑ i ∈ Finset.range engineFlow.vsp_history.reverse.length,
             engineFlow.hysteresis.trend_decay ^ i)) :=
  ⟨by norm_num [engineFlow, HysteresisConfig.base],
    c7_trend_formula engineFlow (by norm_num [engineFlow, HysteresisConfig.base])⟩

/-- The eviction comparator is transitive. -/
theorem wmLe_trans : ∀ a b c : WorkingMemoryItem,
    wmLe a b = true → wmLe b c = true → wmLe a c = true := by
  intro a b c hab hbc
  simp only [wmLe, decide_eq_true_eq] at hab hbc ⊢
  exact le_trans hbc hab

/-- The eviction comparator is total. -/
theorem wmLe_total : ∀ a b : WorkingMemoryItem, (wmLe a b || wmLe b a) = true := by
  intro a b
  simp only [wmLe, Bool.or_eq_true, decide_eq_true_eq]
  exact le_total b.weight.total_weight a.weight.total_weight

/-- A duplicate-free list contained in another list is no longer than
it. -/
theorem nodup_subset_length (l1 l2 : List WorkingMemoryItem)
    (h1 : l1.Nodup) (hs : l1 ⊆ l2) : l1.length ≤ l2.length := by
  have hc1 : l1.toFinset.card = l1.length := List.toFinset_card_of_nodup h1
  have hfs : l1.toFinset ⊆ l2.toFinset := by
    intro x hx
    rw [List.mem_toFinset] at hx ⊢
    exact hs hx
  have hc2 := Finset.card_le_card hfs
  have hc3 := l2.toFinset_card_le
  omega

/-- Two duplicate-free lists of equal length with one contained in the
other contain each other. -/
theorem subset_rev_of_len (l1 l2 : List WorkingMemoryItem)
    (h1 : l1.Nodup) (h2 : l2.Nodup) (hs : l1 ⊆ l2)
    (hl : l2.length ≤ l1.length) : l2 ⊆ l1 := by
  have hc1 : l1.toFinset.card = l1.length := List.toFinset_card_of_nodup h1
  have hc2 : l2.toFinset.card = l2.length := List.toFinset_card_of_nodup h2
  have hfs : l1.toFinset ⊆ l2.toFinset := by
    intro x hx
    rw [List.mem_toFinset] at hx ⊢
    exact hs hx
  have heq : l1.toFinset = l2.toFinset :=
    Finset.eq_of_subset_of_card_le hfs (by omega)
  intro x hx
  have : x ∈ l1.toFinset := by
    rw [heq, List.mem_toFinset]
    exact hx
  rwa [List.mem_toFinset] at this

/-- The working memory produced by add_working_memory_item: append, then
keep the 50 heaviest if the capacity is exceeded. -/
theorem add_wm_eq (p : PSP) (item : WorkingMemoryItem) :
    (p.add_working_memory_item item).working_memory =
      if (p.working_memory ++ [item]).length ≤ 50 then p.working_memory ++ [item]
      else ((p.working_memory ++ [item]).mergeSort wmLe).take 50 := by
  by_cases h : (p.working_memory ++ [item]).length ≤ 50
  · rw [if_pos h]
    unfold PSP.add_working_memory_item PSP.prune_working_memory
    rw [if_pos (by simpa using h)]
    rfl
  · rw [if_neg h]
    unfold PSP.add_working_memory_item PSP.prune_working_memory
    rw [if_neg (by simpa using h)]
    rfl

/-- One step of the eviction loop preserves the invariant, provided the
items seen so far carry pairwise distinct total weights. -/
theorem topInv_step (processed wm : List WorkingMemoryItem) (a : WorkingMemoryItem)
    (hpw : (processed ++ [a]).Pairwise
      (fun u v => u.weight.total_weight ≠ v.weight.total_weight))
    (hinv : TopInv processed wm) :
    TopInv (processed ++ [a])
      (if (wm ++ [a]).length ≤ 50 then wm ++ [a]
       else ((wm ++ [a]).mergeSort wmLe).take 50) := by
  obtain ⟨hnd, hsub, hlen, hsep⟩ := hinv
  have hndPA : (processed ++ [a]).Nodup :=
    hpw.imp (fun h => fun he => h (by rw [he]))
  have hD : ∀ x ∈ processed ++ [a], ∀ y ∈ processed ++ [a], x ≠ y →
      x.weight.total_weight ≠ y.weight.total_weight :=
    List.Pairwise.forall (fun _ _ h => h.symm) hpw
  have haP : a ∉ processed := by
    intro ha
    exact (List.pairwise_append.mp hpw).2.2 a ha a (List.mem_singleton_self a) rfl
  have haWm : a ∉ wm := fun h => haP (hsub a h)
  have hndWA : (wm ++ [a]).Nodup := by
    rw [List.nodup_append]
    refine ⟨hnd, List.nodup_singleton a, ?_⟩
    intro x hx hxa
    exact haWm ((List.mem_singleton.mp hxa) ▸ hx)
  have hWA2PA : ∀ z ∈ wm ++ [a], z ∈ processed ++ [a] := by
    intro z hz
    rcases List.mem_append.mp hz with h | h
    · exact List.mem_append.mpr (Or.inl (hsub z h))
    · exact List.mem_append.mpr (Or.inr h)
  by_cases h50 : (wm ++ [a]).length ≤ 50
  · rw [if_pos h50]
    refine ⟨hndWA, hWA2PA, ?_, ?_⟩
    · simp only [List.length_append, List.length_singleton] at h50 ⊢
      omega
    · intro x hx hnx y hy
      exfalso
      have hxP : x ∈ processed := by
        rcases List.mem_append.mp hx with h | h
        · exact h
        · exact absurd (List.mem_append.mpr (Or.inr h)) hnx
      have hxWm : x ∉ wm := fun h => hnx (List.mem_append.mpr (Or.inl h))
      have hplen : processed.length ≤ wm.length := by
        simp only [List.length_append, List.length_singleton] at h50
        omega
      have hndP : processed.Nodup := (List.nodup_append.mp hndPA).1
      exact hxWm (subset_rev_of_len wm processed hnd hndP (fun z hz => hsub z hz) hplen hxP)
  · rw [if_neg h50]
    have hperm : ((wm ++ [a]).mergeSort wmLe).Perm (wm ++ [a]) :=
      List.mergeSort_perm (wm ++ [a]) wmLe
    have hsortPW : ((wm ++ [a]).mergeSort wmLe).Pairwise (fun u v => wmLe u v = true) :=
      List.sorted_mergeSort wmLe_trans wmLe_total (wm ++ [a])
    have hwmlen : wm.length = 50 := by
      simp only [List.length_append, List.length_singleton] at h50
      omega
    have hplen50 : 50 ≤ processed.length := by omega
    have hslen : ((wm ++ [a]).mergeSort wmLe).length = 51 := by
      rw [List.length_mergeSort]
      simp [hwmlen]
    have hndS : ((wm ++ [a]).mergeSort wmLe).Nodup := hperm.symm.nodup hndWA
    have hdlen : (((wm ++ [a]).mergeSort wmLe).drop 50).length = 1 := by
      rw [List.length_drop, hslen]
    obtain ⟨m, hm⟩ := List.length_eq_one.mp hdlen
    have hsTD : (wm ++ [a]).mergeSort wmLe =
        ((wm ++ [a]).mergeSort wmLe).take 50 ++ [m] := by
      rw [← hm, List.take_append_drop]
    have htlen : (((wm ++ [a]).mergeSort wmLe).take 50).length = 50 := by
      rw [List.length_take, hslen]
      omega
    have hmNotTake : m ∉ ((wm ++ [a]).mergeSort wmLe).take 50 := by
      have hnd2 := hndS
      rw [hsTD, List.nodup_append] at hnd2
      intro hmem
      exact hnd2.2.2 hmem (List.mem_singleton_self m)
    have htakeSub : ∀ y ∈ ((wm ++ [a]).mergeSort wmLe).take 50, y ∈ wm ++ [a] := by
      intro y hy
      exact hperm.subset ((List.take_sublist 50 _).subset hy)
    have hmWA : m ∈ wm ++ [a] := by
      refine hperm.subset ?_
      rw [hsTD]
      exact List.mem_append.mpr (Or.inr (List.mem_singleton_self m))
    have hkeylt : ∀ y ∈ ((wm ++ [a]).mergeSort wmLe).take 50,
        m.weight.total_weight < y.weight.total_weight := by
      intro y hy
      have hle : m.weight.total_weight ≤ y.weight.total_weight := by
        have hpw2 := hsortPW
        rw [hsTD] at hpw2
        have := (List.pairwise_append.mp hpw2).2.2 y hy m (List.mem_singleton_self m)
        simpa [wmLe, decide_eq_true_eq] using this
      have hne2 : m ≠ y := by
        intro he
        exact hmNotTake (he ▸ hy)
      exact lt_of_le_of_ne hle (hD m (hWA2PA m hmWA) y (hWA2PA y (htakeSub y hy)) hne2)
    refine ⟨hndS.sublist (List.take_sublist 50 _), ?_, ?_, ?_⟩
    · intro y hy
      exact hWA2PA y (htakeSub y hy)
    · rw [htlen, List.length_append, List.length_singleton]
      omega
    · intro x hx hnx y hy
      by_cases hxWA : x ∈ wm ++ [a]
      · have hxS : x ∈ (wm ++ [a]).mergeSort wmLe := hperm.symm.subset hxWA
        rw [hsTD] at hxS
        rcases List.mem_append.mp hxS with h | h
        · exact absurd h hnx
        · have hxm : x = m := List.mem_singleton.mp h
          rw [hxm]
          exact hkeylt y hy
      · have hxP : x ∈ processed := by
          rcases List.mem_append.mp hx with h | h
          · exact h
          · exact absurd (List.mem_append.mpr (Or.inr h)) hxWA
        have hxWm : x ∉ wm := fun h => hxWA (List.mem_append.mpr (Or.inl h))
        have hsepx := hsep x hxP hxWm
        rcases List.mem_append.mp (htakeSub y hy) with hyw | hya
        · exact hsepx y hyw
        · have hya2 : y = a := List.mem_singleton.mp hya
          subst hya2
          have hma : m ≠ y := by
            intro he
            rw [he] at hmNotTake
            exact hmNotTake hy
          have hmWm : m ∈ wm := by
            rcases List.mem_append.mp hmWA with h | h
            · exact h
            · exact absurd (List.mem_singleton.mp h) hma
          exact lt_trans (hsepx m hmWm) (hkeylt y hy)

/-- The eviction loop keeps the invariant along any item stream with
pairwise distinct total weights. -/
theorem topInv_foldl (items : List WorkingMemoryItem) :
    ∀ (processed : List WorkingMemoryItem) (p : PSP),
      (processed ++ items).Pairwise
        (fun u v => u.weight.total_weight ≠ v.weight.total_weight) →
      TopInv processed p.working_memory →
      TopInv (processed ++ items)
        ((items.foldl PSP.add_working_memory_item p).working_memory) := by
  induction items with
  | nil =>
      intro processed p hpw hinv
      simpa using hinv
  | cons a rest ih =>
      intro processed p hpw hinv
      rw [List.foldl_cons]
      have hassoc : processed ++ a :: rest = (processed ++ [a]) ++ rest := by
        simp
      have hpw2 : ((processed ++ [a]) ++ rest).Pairwise
          (fun u v => u.weight.total_weight ≠ v.weight.total_weight) := by
        rw [← hassoc]
        exact hpw
      have hpwPA : (processed ++ [a]).Pairwise
          (fun u v => u.weight.total_weight ≠ v.weight.total_weight) :=
        hpw2.sublist (List.sublist_append_left _ _)
      have hstep := topInv_step processed p.working_memory a hpwPA hinv
      rw [← add_wm_eq p a] at hstep
      have hrec := ih (processed ++ [a]) (p.add_working_memory_item a) hpw2 hstep
      rw [hassoc]
      exact hrec

/-- C8: starting from an empty packet, folding 60 items with pairwise
distinct total weights through add_working_memory_item retains exactly 50
items, all drawn from the stream without duplication, and an item of the
stream is retained exactly when fewer than 50 stream items outweigh it -
that is, the retained set is exactly the 50 heaviest by total_weight. -/
theorem c8_weighted_eviction (p0 : PSP) (h0 : p0.working_memory = [])
    (items : List WorkingMemoryItem) (hlen : items.length = 60)
    (hpw : items.Pairwise (fun u v => u.weight.total_weight ≠ v.weight.total_weight))
    (final : List WorkingMemoryItem)
    (hfinal : final = (items.foldl PSP.add_working_memory_item p0).working_memory) :
    final.length = 50 ∧ final.Nodup ∧ (∀ x ∈ final, x ∈ items) ∧
      ∀ x ∈ items, (x ∈ final ↔
        items.countP (fun y => decide (x.weight.total_weight < y.weight.total_weight)) < 50) := by
  have hitems_nodup : items.Nodup := hpw.imp (fun h => fun he => h (by rw [he]))
  have hinv0 : TopInv [] p0.working_memory := by
    rw [h0]
    exact ⟨List.nodup_nil, by simp, by simp, by simp⟩
  have hinv := topInv_foldl items [] p0 (by simpa using hpw) hinv0
  rw [List.nil_append, ← hfinal] at hinv
  obtain ⟨hndF, hsubF, hlenF, hsepF⟩ := hinv
  have hlen50 : final.length = 50 := by
    rw [hlenF, hlen]
    rfl
  refine ⟨hlen50, hndF, hsubF, ?_⟩
  intro x hxI
  constructor
  · intro hxF
    rw [List.countP_eq_length_filter]
    have hfsub : items.filter (fun y => decide (x.weight.total_weight < y.weight.total_weight)) ⊆
        final.erase x := by
      intro y hyf
      rw [List.mem_filter, decide_eq_true_eq] at hyf
      obtain ⟨hyI, hylt⟩ := hyf
      have hyF : y ∈ final := by
        by_contra hyn
        exact absurd hylt (not_lt.mpr (le_of_lt (hsepF y hyI hyn x hxF)))
      have hyx : y ≠ x := by
        intro he
        rw [he] at hylt
        exact lt_irrefl _ hylt
      rw [List.mem_erase_of_ne hyx]
      exact hyF
    have hfnodup :
        (items.filter (fun y => decide (x.weight.total_weight < y.weight.total_weight))).Nodup :=
      hitems_nodup.filter _
    have hle := nodup_subset_length _ _ hfnodup hfsub
    have herase : (final.erase x).length = 49 := by
      rw [List.length_erase_of_mem hxF, hlen50]
    omega
  · intro hcount
    by_contra hxF
    have hFsub : final ⊆
        items.filter (fun y => decide (x.weight.total_weight < y.weight.total_weight)) := by
      intro z hz
      rw [List.mem_filter, decide_eq_true_eq]
      exact ⟨hsubF z hz, hsepF x hxI hxF z hz⟩
    have hge := nodup_subset_length _ _ hndF hFsub
    rw [List.countP_eq_length_filter] at hcount
    omega

/-- The sixty concrete items carry pairwise distinct total weights. -/
theorem wmItems60_weights_distinct :
    wmItems60.Pairwise (fun u v => u.weight.total_weight ≠ v.weight.total_weight) := by
  rw [wmItems60, List.pairwise_map]
  refine (List.pairwise_lt_range 60).imp ?_
  intro i j hij
  simp only [wmItem, WeightVector.total_weight]
  intro he
  have hcast : (i : ℚ) < j := by exact_mod_cast hij
  have : (i : ℚ) = j := by linarith
  linarith

/-- C8 witness: the theorem applied to the fresh default packet and the
sixty concrete items. -/
theorem c8_weighted_eviction_witness :
    pspExample.working_memory = [] ∧ wmItems60.length = 60 ∧
    wmItems60.Pairwise (fun u v => u.weight.total_weight ≠ v.weight.total_weight) ∧
    ((wmItems60.foldl PSP.add_working_memory_item pspExample).working_memory.length = 50 ∧
     (wmItems60.foldl PSP.add_working_memory_item pspExample).working_memory.Nodup ∧
     (∀ x ∈ (wmItems60.foldl PSP.add_working_memory_item pspExample).working_memory,
        x ∈ wmItems60) ∧
     ∀ x ∈ wmItems60,
       (x ∈ (wmItems60.foldl PSP.add_working_memory_item pspExample).working_memory ↔
        wmItems60.countP
          (fun y => decide (x.weight.total_weight < y.weight.total_weight)) < 50)) :=
  ⟨rfl, by simp [wmItems60], wmItems60_weights_distinct,
    c8_weighted_eviction pspExample rfl wmItems60 (by simp [wmItems60])
      wmItems60_weights_distinct _ rfl⟩

end Sam
